import Mathlib

deriving instance DecidableEq for Except

set_option maxRecDepth 16384

/-!
# TouchGrass Verifier Server — verification of the `/api/verify` pipeline

Shallow embedding of `src/index.js`'s verification-and-commit pipeline:
request-body validation, the evaluator call raced against a fixed
60-second timer, verdict interpretation (`isVerified`), the ledger
commit (`contract.verifySuccess` + `tx.wait`), and the catch-block
error classifier.  The handler is modelled as a pure function from the
request body and the behaviour of the external collaborators
(evaluator, ledger, inclusion wait) to the trace of observable events
it performs, ending in the HTTP response it sends.
-/

namespace TouchGrass

/-- JavaScript numbers, restricted to the integer fragment plus `NaN`.
No claim involves fractional values, so `Number` results are modelled
as integers or `NaN`. -/
inductive JSNum where
  | nan
  | int (n : Int)
deriving DecidableEq, Repr

/-- A JavaScript value as it can appear in a parsed JSON request body
field (after `const { challengeId, title, imageUrl } = req.body`):
absent fields destructure to `undefined`. Objects/arrays are not
modelled; no claim depends on them. -/
inductive JSValue where
  | undefined
  | null
  | bool (b : Bool)
  | num (n : JSNum)
  | str (s : String)
deriving DecidableEq, Repr

/-- JavaScript truthiness: `undefined`, `null`, `false`, `0`, `NaN`
and `""` are falsy, everything else modelled is truthy. -/
def JSValue.truthy : JSValue → Bool
  | .undefined => false
  | .null => false
  | .bool b => b
  | .num .nan => false
  | .num (.int n) => n != 0
  | .str s => s != ""

/-- `s.trim()`: strip leading and trailing whitespace. -/
def jsTrim (s : String) : String :=
  ⟨((s.data.dropWhile Char.isWhitespace).reverse.dropWhile
      Char.isWhitespace).reverse⟩

/-- `Number(s)` for a string, on the integer fragment: whitespace is
trimmed, the empty string converts to `0`, an optional sign followed
by decimal digits converts to that integer, and anything else is
`NaN`.  (Fractional, hex and exponent literals are outside the
modelled input space.) -/
def jsStringToNumber (s : String) : JSNum :=
  let t := jsTrim s
  if t = "" then .int 0
  else
    match t.toList with
    | '-' :: ds => if ds ≠ [] ∧ ds.all Char.isDigit then .int (-(ds.foldl (fun a c => a * 10 + (c.toNat - 48)) 0 : Nat)) else .nan
    | '+' :: ds => if ds ≠ [] ∧ ds.all Char.isDigit then .int (ds.foldl (fun a c => a * 10 + (c.toNat - 48)) 0 : Nat) else .nan
    | ds => if ds.all Char.isDigit then .int (ds.foldl (fun a c => a * 10 + (c.toNat - 48)) 0 : Nat) else .nan

/-- `Number(x)` coercion on the modelled values. -/
def JSValue.toNumber : JSValue → JSNum
  | .undefined => .nan
  | .null => .int 0
  | .bool true => .int 1
  | .bool false => .int 0
  | .num n => n
  | .str s => jsStringToNumber s

/-- `isNaN` on a modelled JavaScript number. -/
def JSNum.isNaN : JSNum → Bool
  | .nan => true
  | .int _ => false

/-- The request body of `POST /api/verify` after JSON parsing:
the three destructured fields, each an arbitrary JSON value. -/
structure RequestBody where
  challengeId : JSValue
  title : JSValue
  imageUrl : JSValue
deriving DecidableEq, Repr

/-- A response body as produced by `res.json(...)` in the handler:
`{ success, message?, txHash? }`. -/
structure RespBody where
  success : Bool
  message : Option String
  txHash : Option String
deriving DecidableEq, Repr

/-- An HTTP response: status code plus JSON body. -/
structure HttpResp where
  status : Nat
  body : RespBody
deriving DecidableEq, Repr

/-- `{ success: false, message: m }` with status `st`. -/
def errResp (st : Nat) (m : String) : HttpResp :=
  ⟨st, ⟨false, some m, none⟩⟩

def missingFieldsResp : HttpResp :=
  errResp 400 "Missing required fields: challengeId, title, imageUrl"

def badChallengeIdResp : HttpResp :=
  errResp 400 "challengeId must be a valid number"

def badTitleResp : HttpResp :=
  errResp 400 "title must be a string under 500 characters"

def badImageUrlResp : HttpResp :=
  errResp 400 "imageUrl must be a valid URL"

/-- The four pre-pipeline validation responses of the handler. -/
def validationResps : List HttpResp :=
  [missingFieldsResp, badChallengeIdResp, badTitleResp, badImageUrlResp]

/-- Input validation of `/api/verify`, in source order:
missing-fields truthiness check, `isNaN(Number(challengeId))`,
title type/length, imageUrl type.  On success it yields the `title`
and `imageUrl` strings used by the pipeline. -/
def validate (b : RequestBody) : Except HttpResp (String × String) :=
  if ¬ (b.challengeId.truthy ∧ b.title.truthy ∧ b.imageUrl.truthy) then
    .error missingFieldsResp
  else if b.challengeId.toNumber.isNaN then
    .error badChallengeIdResp
  else
    match b.title with
    | .str t =>
      if t.length > 500 then .error badTitleResp
      else
        match b.imageUrl with
        | .str u => .ok (t, u)
        | _ => .error badImageUrlResp
    | _ => .error badTitleResp

/-- `String.prototype.includes(pat)` on lists of characters: does
`pat` occur as a contiguous substring? -/
def occursIn (pat : List Char) : List Char → Bool
  | [] => pat.isEmpty
  | c :: rest => pat.isPrefixOf (c :: rest) || occursIn pat rest

/-- `s.includes(pat)` for strings. -/
def jsIncludes (s pat : String) : Bool := occursIn pat.toList s.toList

/-- `s.toUpperCase()` (ASCII fragment; the verdict tokens are ASCII). -/
def jsToUpper (s : String) : String := ⟨s.data.map Char.toUpper⟩

/-- An error value reaching the handler's catch block:
`message`, optional `code` (ethers sets `code: "CALL_EXCEPTION"` on a
contract revert), and whether an HTTP `response` field is attached
(only used for internal logging). -/
structure JsError where
  message : Option String
  code : Option String
  hasResponse : Bool
deriving DecidableEq, Repr

/-- The fixed system prompt sent verbatim to the evaluator on every
call (whitespace normalised; its exact text decides no claim). -/
def SYSTEM_PROMPT : String :=
"You are the Verification Engine for \"TouchGrass,\" a high-stakes accountability protocol where users stake real money on completing health and productivity goals. Your job is to analyze image evidence and determine with high integrity if the user completed their specific objective.
### 1. THE INPUTS
### 2. ACCEPTABLE EVIDENCE TYPES
### 3. VERIFICATION LOGIC (STRICT)
### 4. REJECTION CRITERIA (FALSE POSITIVES)
### 5. OUTPUT FORMAT
Answer strictly with YES or NO. Do not write any conversational text"

/-- The structured request the Evidence Evaluator Client sends:
model name, the fixed system prompt, the per-attempt user text
(with the goal title interpolated), and the image reference passed
through as `image_url.url`. -/
structure EvalRequest where
  model : String
  systemPrompt : String
  userText : String
  imageUrlRef : String
deriving DecidableEq, Repr

/-- `openai.chat.completions.create(...)`: the request built from the
validated `title` and `imageUrl`. The image reference is forwarded
verbatim. -/
def mkEvalRequest (title imageUrl : String) : EvalRequest :=
  ⟨"openai/gpt-4o", SYSTEM_PROMPT,
   "You are a strict accountability judge. Does this image clearly verify that the user completed the task: \"" ++ title ++ "\"? Answer strictly with YES or NO.",
   imageUrl⟩

/-- `AI_TIMEOUT_MS = 60000`: the fixed evaluator deadline. -/
def AI_TIMEOUT_MS : Nat := 60000

/-- How the evaluator promise behaves on one attempt: it settles at
some time (in ms) with a content field (`none` models a `null`
`message.content`), settles at some time rejected with an error, or
never settles. -/
inductive EvalOutcome where
  | resolves (atMs : Nat) (content : Option String)
  | rejects (atMs : Nat) (e : JsError)
  | never
deriving DecidableEq, Repr

/-- The error the deadline timer rejects with:
`new Error("AI verification timeout")`. -/
def timeoutError : JsError := ⟨some "AI verification timeout", none, false⟩

/-- `Promise.race([aiPromise, timeoutPromise])`: the evaluator wins
iff it settles strictly before the 60000 ms timer fires; otherwise
the timer rejects with `timeoutError`. -/
def raceEval : EvalOutcome → Except JsError (Option String)
  | .resolves t c => if t < AI_TIMEOUT_MS then .ok c else .error timeoutError
  | .rejects t e => if t < AI_TIMEOUT_MS then .error e else .error timeoutError
  | .never => .error timeoutError

/-- The TypeError thrown by `answer.trim()` when the evaluator content
is `null` (text abbreviated; it is not the timeout message, carries no
`code`, and does not mention rate limits). -/
def nullContentError : JsError :=
  ⟨some "TypeError: cannot read trim of null", none, false⟩

/-- `const isVerified = answer.trim().toUpperCase().includes("YES")`:
a present content string is trimmed, upper-cased and searched for the
substring `YES`; an absent (`null`) content makes `.trim()` throw. -/
def isVerifiedOf : Option String → Except JsError Bool
  | none => .error nullContentError
  | some s => .ok (jsIncludes (jsToUpper (jsTrim s)) "YES")

/-- How `contract.verifySuccess(challengeId, { gasLimit: 200000 })`
behaves: resolves with a transaction carrying a hash, or rejects. -/
inductive LedgerOutcome where
  | resolves (hash : String)
  | rejects (e : JsError)
deriving DecidableEq, Repr

/-- How `tx.wait()` behaves: resolves once the transaction is
included, or rejects. -/
inductive WaitOutcome where
  | resolves
  | rejects (e : JsError)
deriving DecidableEq, Repr

/-- The behaviour of the external collaborators during one attempt. -/
structure Env where
  eval : EvalOutcome
  ledger : LedgerOutcome
  txwait : WaitOutcome
deriving DecidableEq, Repr

/-- `error.message?.includes("rate limit")` (optional chaining:
`undefined` is falsy). -/
def errorRateLimited (e : JsError) : Bool :=
  match e.message with
  | some m => jsIncludes m "rate limit"
  | none => false

def evaluatorTimeoutResp : HttpResp :=
  errResp 504 "AI verification timed out. Please try again."

def alreadyFinalizedResp : HttpResp :=
  errResp 400 "Challenge may already be verified or does not exist."

def rateLimitedResp : HttpResp :=
  errResp 429 "AI service rate limited. Please try again in a few seconds."

def internalFailureResp : HttpResp :=
  errResp 500 "Verification process failed. Please try again."

/-- The catch block of `/api/verify`: classify the caught error by the
fixed if-chain and answer with the category's fixed message. -/
def classifyError (e : JsError) : HttpResp :=
  if e.message = some "AI verification timeout" then evaluatorTimeoutResp
  else if e.code = some "CALL_EXCEPTION" then alreadyFinalizedResp
  else if errorRateLimited e then rateLimitedResp
  else internalFailureResp

/-- The caller-facing error categories produced by the catch block. -/
inductive ErrCategory where
  | evaluatorTimeout
  | alreadyFinalized
  | evaluatorRateLimited
  | internalFailure
deriving DecidableEq, Repr

/-- The category an error classifies into (the same if-chain as
`classifyError`, forgetting the response). -/
def categoryOf (e : JsError) : ErrCategory :=
  if e.message = some "AI verification timeout" then .evaluatorTimeout
  else if e.code = some "CALL_EXCEPTION" then .alreadyFinalized
  else if errorRateLimited e then .evaluatorRateLimited
  else .internalFailure

/-- The fixed response attached to each category. -/
def categoryResp : ErrCategory → HttpResp
  | .evaluatorTimeout => evaluatorTimeoutResp
  | .alreadyFinalized => alreadyFinalizedResp
  | .evaluatorRateLimited => rateLimitedResp
  | .internalFailure => internalFailureResp

/-- `EvidenceRejected`: the evaluator verdict was negative. -/
def evidenceRejectedResp : HttpResp :=
  errResp 400 "AI could not verify the objective based on the photo provided."

/-- The success response `res.json({ success: true, txHash })`. -/
def successResp (h : String) : HttpResp :=
  ⟨200, ⟨true, none, some h⟩⟩

/-- Observable events of one handler execution, in order. -/
inductive Event where
  | evalCall (req : EvalRequest)
  | ledgerCall
  | txWaitDone (hash : String)
  | respond (r : HttpResp)
deriving DecidableEq, Repr

/-- The `/api/verify` handler: validation, then the evaluator call
raced against the timer, verdict interpretation, the ledger commit
and the inclusion wait, with every thrown error classified by the
catch block.  Returns the ordered trace of observable events. -/
def verifyHandler (b : RequestBody) (env : Env) : List Event :=
  match validate b with
  | .error r => [.respond r]
  | .ok (t, u) =>
    .evalCall (mkEvalRequest t u) ::
    match raceEval env.eval with
    | .error e => [.respond (classifyError e)]
    | .ok content =>
      match isVerifiedOf content with
      | .error e => [.respond (classifyError e)]
      | .ok false => [.respond evidenceRejectedResp]
      | .ok true =>
        .ledgerCall ::
        match env.ledger with
        | .rejects e => [.respond (classifyError e)]
        | .resolves h =>
          match env.txwait with
          | .rejects e => [.respond (classifyError e)]
          | .resolves => [.txWaitDone h, .respond (successResp h)]

/-- The responses sent during a trace. -/
def responsesOf (tr : List Event) : List HttpResp :=
  tr.filterMap fun e =>
    match e with
    | .respond r => some r
    | _ => none

/-- The number of ledger invocations in a trace. -/
def ledgerCallCount (tr : List Event) : Nat :=
  tr.countP fun e =>
    match e with
    | .ledgerCall => true
    | _ => false

/-- Whether the trace contains an evaluator call. -/
def callsEvaluator (tr : List Event) : Bool :=
  tr.any fun e =>
    match e with
    | .evalCall _ => true
    | _ => false

/-- Did the evaluator promise settle (resolve or reject) strictly
before the deadline `d`? -/
def settlesBefore (ev : EvalOutcome) (d : Nat) : Prop :=
  match ev with
  | .resolves t _ => t < d
  | .rejects t _ => t < d
  | .never => False

instance (ev : EvalOutcome) (d : Nat) : Decidable (settlesBefore ev d) := by
  unfold settlesBefore
  cases ev <;> infer_instance

/-- The fixed error taxonomy of caller-facing responses: the four
pre-pipeline validation rejections, the evidence rejection, and the
four catch-block classifications. -/
def errorTaxonomyResps : List HttpResp :=
  [missingFieldsResp, badChallengeIdResp, badTitleResp, badImageUrlResp,
   evidenceRejectedResp, evaluatorTimeoutResp, alreadyFinalizedResp,
   rateLimitedResp, internalFailureResp]

/-! ## Concrete fixtures used by witnesses and counterexamples -/

/-- A well-formed request body. -/
def reqOK : RequestBody := ⟨.str "42", .str "Run 5km", .str "img"⟩

/-- Collaborators: evaluator answers `YES` promptly, ledger and wait
succeed. -/
def envApprove : Env := ⟨.resolves 100 (some "YES"), .resolves "0xabc123", .resolves⟩

/-- Collaborators: evaluator answers `NO` promptly. -/
def envRejectNO : Env := ⟨.resolves 100 (some "NO"), .resolves "0xabc123", .resolves⟩

/-- Collaborators: the evaluator call never settles. -/
def envNeverEval : Env := ⟨.never, .resolves "0xabc123", .resolves⟩

/-- Collaborators: evaluator resolves with a `null` content field. -/
def envNullContent : Env := ⟨.resolves 100 none, .resolves "0xabc123", .resolves⟩

/-- Collaborators: evaluator answers `MAYBE` promptly. -/
def envMaybe : Env := ⟨.resolves 0 (some "MAYBE"), .resolves "0xabc123", .resolves⟩

/-- A 501-character title. -/
def longTitle : String := ⟨List.replicate 501 'x'⟩

/-- A 500-character title. -/
def title500 : String := ⟨List.replicate 500 'a'⟩

/-- A request body whose title is 501 characters long. -/
def reqLongTitle : RequestBody := ⟨.str "42", .str longTitle, .str "img"⟩

/-- An ethers revert error, as raised when the contract rejects the
`verifySuccess` call. -/
def revertError : JsError := ⟨some "execution reverted", some "CALL_EXCEPTION", false⟩

/-- Collaborators: evaluator approves, ledger call reverts. -/
def envLedgerRevert : Env := ⟨.resolves 100 (some "YES"), .rejects revertError, .resolves⟩

/-! ## Helper lemmas -/

/-- If the evaluator does not settle before the deadline, the race is
decided by the timer. -/
theorem raceEval_of_no_settle (ev : EvalOutcome)
    (hns : ¬ settlesBefore ev AI_TIMEOUT_MS) :
    raceEval ev = .error timeoutError := by
  cases ev with
  | resolves t c =>
    simp only [settlesBefore] at hns
    simp only [raceEval, if_neg hns]
  | rejects t e =>
    simp only [settlesBefore] at hns
    simp only [raceEval, if_neg hns]
  | never => rfl

/-- Every validation failure is one of the four fixed validation
responses. -/
theorem validate_error_mem (b : RequestBody) (r : HttpResp)
    (hv : validate b = .error r) : r ∈ validationResps := by
  unfold validate at hv
  split at hv
  · cases hv; simp [validationResps]
  · split at hv
    · cases hv; simp [validationResps]
    · split at hv
      · split at hv
        · cases hv; simp [validationResps]
        · split at hv
          · cases hv
          · cases hv; simp [validationResps]
      · cases hv; simp [validationResps]

/-- Every catch-block classification is one of the four fixed error
responses. -/
theorem classifyError_mem (e : JsError) :
    classifyError e ∈
      [evaluatorTimeoutResp, alreadyFinalizedResp, rateLimitedResp,
       internalFailureResp] := by
  unfold classifyError
  split
  · simp
  · split
    · simp
    · split <;> simp

/-- Classified error responses never claim success. -/
theorem classifyError_success_false (e : JsError) :
    (classifyError e).body.success = false := by
  have h := classifyError_mem e
  simp only [List.mem_cons, List.not_mem_nil, or_false] at h
  rcases h with h | h | h | h <;> (rw [h]; rfl)

/-- Validation failure responses never claim success. -/
theorem validate_error_success_false (b : RequestBody) (r : HttpResp)
    (hv : validate b = .error r) : r.body.success = false := by
  have h := validate_error_mem b r hv
  simp only [validationResps, List.mem_cons, List.not_mem_nil, or_false] at h
  rcases h with h | h | h | h <;> (rw [h]; rfl)

/-- The validation responses are part of the fixed taxonomy. -/
theorem validationResps_sub_taxonomy :
    ∀ r ∈ validationResps, r ∈ errorTaxonomyResps := by decide

/-- Every classified error response is part of the fixed taxonomy. -/
theorem classifyError_mem_taxonomy (e : JsError) :
    classifyError e ∈ errorTaxonomyResps := by
  have h := classifyError_mem e
  simp only [List.mem_cons, List.not_mem_nil, or_false] at h
  rcases h with h | h | h | h <;> rw [h] <;> decide

/-- No classified error response is the evidence rejection. -/
theorem classifyError_ne_evidenceRejected (e : JsError) :
    classifyError e ≠ evidenceRejectedResp := by
  have h := classifyError_mem e
  simp only [List.mem_cons, List.not_mem_nil, or_false] at h
  rcases h with h | h | h | h <;> rw [h] <;> decide

/-- A body whose `challengeId` is truthy and numeric, whose title is a
non-empty string of at most 500 characters and whose image reference
is a non-empty string passes validation. -/
theorem validate_ok_of (cid : JSValue) (t u : String)
    (hc : cid.truthy = true) (hn : cid.toNumber.isNaN = false)
    (ht : t ≠ "") (hlen : t.length ≤ 500) (hu : u ≠ "") :
    validate ⟨cid, .str t, .str u⟩ = .ok (t, u) := by
  have h1 : (JSValue.str t).truthy = true := by simp [JSValue.truthy, ht]
  have h2 : (JSValue.str u).truthy = true := by simp [JSValue.truthy, hu]
  have h3 : ¬ t.length > 500 := by omega
  simp [validate, hc, h1, h2, hn, h3]

/-- A body whose title is not a string, or is a string longer than 500
characters, fails validation with one of the fixed validation
responses. -/
theorem validate_title_bad (b : RequestBody)
    (hbad : (∀ s, b.title ≠ .str s) ∨ ∃ s, b.title = .str s ∧ 500 < s.length) :
    ∃ r ∈ validationResps, validate b = .error r := by
  by_cases hm : (b.challengeId.truthy = true ∧ b.title.truthy = true ∧
      b.imageUrl.truthy = true)
  case neg =>
    exact ⟨missingFieldsResp, by simp [validationResps], by simp [validate, hm]⟩
  case pos =>
    obtain ⟨hm1, hm2, hm3⟩ := hm
    by_cases hn : b.challengeId.toNumber.isNaN = true
    · exact ⟨badChallengeIdResp, by simp [validationResps],
        by simp [validate, hm1, hm2, hm3, hn]⟩
    · refine ⟨badTitleResp, by simp [validationResps], ?_⟩
      rcases hbad with hns | ⟨s, hs, hlen⟩
      · rcases hb : b.title with _ | _ | bb | nn | ss
        · rw [hb] at hm2
          exact absurd hm2 (by simp [JSValue.truthy])
        · rw [hb] at hm2
          exact absurd hm2 (by simp [JSValue.truthy])
        · rw [hb] at hm2
          simp [validate, hm1, hm2, hm3, hn, hb]
        · rw [hb] at hm2
          simp [validate, hm1, hm2, hm3, hn, hb]
        · exact absurd hb (hns ss)
      · rw [hs] at hm2
        simp [validate, hm1, hm2, hm3, hn, hs, hlen]

/-- Exhaustive characterization of the handler: every execution falls
into exactly one of the branches of the pipeline, with the
corresponding trace. -/
theorem verifyHandler_cases (b : RequestBody) (env : Env) :
    (∃ r, validate b = .error r ∧ verifyHandler b env = [.respond r]) ∨
    (∃ t u, validate b = .ok (t, u) ∧
      ((∃ e, raceEval env.eval = .error e ∧ verifyHandler b env =
          [.evalCall (mkEvalRequest t u), .respond (classifyError e)]) ∨
       (∃ c, raceEval env.eval = .ok c ∧
         ((∃ e, isVerifiedOf c = .error e ∧ verifyHandler b env =
             [.evalCall (mkEvalRequest t u), .respond (classifyError e)]) ∨
          (isVerifiedOf c = .ok false ∧ verifyHandler b env =
             [.evalCall (mkEvalRequest t u), .respond evidenceRejectedResp]) ∨
          (isVerifiedOf c = .ok true ∧
            ((∃ e, env.ledger = .rejects e ∧ verifyHandler b env =
                [.evalCall (mkEvalRequest t u), .ledgerCall,
                 .respond (classifyError e)]) ∨
             (∃ h, env.ledger = .resolves h ∧
               ((∃ e, env.txwait = .rejects e ∧ verifyHandler b env =
                   [.evalCall (mkEvalRequest t u), .ledgerCall,
                    .respond (classifyError e)]) ∨
                (env.txwait = .resolves ∧ verifyHandler b env =
                   [.evalCall (mkEvalRequest t u), .ledgerCall, .txWaitDone h,
                    .respond (successResp h)]))))))))) := by
  rcases hval : validate b with r0 | ⟨t, u⟩
  · exact Or.inl ⟨r0, rfl, by simp [verifyHandler, hval]⟩
  · refine Or.inr ⟨t, u, rfl, ?_⟩
    rcases hrace : raceEval env.eval with e | c
    · exact Or.inl ⟨e, rfl, by simp [verifyHandler, hval, hrace]⟩
    · refine Or.inr ⟨c, rfl, ?_⟩
      rcases hver : isVerifiedOf c with e | v
      · exact Or.inl ⟨e, rfl, by simp [verifyHandler, hval, hrace, hver]⟩
      · cases v
        · exact Or.inr (Or.inl ⟨rfl, by simp [verifyHandler, hval, hrace, hver]⟩)
        · refine Or.inr (Or.inr ⟨rfl, ?_⟩)
          rcases hld : env.ledger with h | e
          · refine Or.inr ⟨h, rfl, ?_⟩
            rcases hw : env.txwait with _ | e2
            · exact Or.inr ⟨rfl,
                by simp [verifyHandler, hval, hrace, hver, hld, hw]⟩
            · exact Or.inl ⟨e2, rfl,
                by simp [verifyHandler, hval, hrace, hver, hld, hw]⟩
          · exact Or.inl ⟨e, rfl,
              by simp [verifyHandler, hval, hrace, hver, hld]⟩

/-- The ledger is invoked during a trace only when the race yielded a
content that interpreted to `approved = true`. -/
theorem ledgerCall_mem_inv (b : RequestBody) (env : Env)
    (hmem : Event.ledgerCall ∈ verifyHandler b env) :
    ∃ c, raceEval env.eval = .ok c ∧ isVerifiedOf c = .ok true := by
  rcases verifyHandler_cases b env with ⟨r, _, htr⟩ | ⟨t, u, _, hrest⟩
  · rw [htr] at hmem
    simp at hmem
  · rcases hrest with ⟨e, _, htr⟩ | ⟨c, hrace, hrest⟩
    · rw [htr] at hmem
      simp at hmem
    · rcases hrest with ⟨e, _, htr⟩ | ⟨_, htr⟩ | ⟨hver, hrest⟩
      · rw [htr] at hmem
        simp at hmem
      · rw [htr] at hmem
        simp at hmem
      · exact ⟨c, hrace, hver⟩

/-- A success response is sent only on the full success path: the
ledger call resolved with a transaction, the inclusion wait resolved,
and the trace is exactly evaluator call, ledger call, inclusion
confirmation, then the success response carrying that transaction
hash. -/
theorem success_respond_inv (b : RequestBody) (env : Env) (r : HttpResp)
    (hmem : Event.respond r ∈ verifyHandler b env) (hs : r.body.success = true) :
    ∃ h, env.ledger = .resolves h ∧ env.txwait = .resolves ∧ r = successResp h ∧
      ∃ t u, verifyHandler b env =
        [.evalCall (mkEvalRequest t u), .ledgerCall, .txWaitDone h,
         .respond (successResp h)] := by
  rcases verifyHandler_cases b env with ⟨r0, hval, htr⟩ | ⟨t, u, hval, hrest⟩
  · rw [htr] at hmem
    simp at hmem
    rw [hmem, validate_error_success_false b r0 hval] at hs
    exact Bool.noConfusion hs
  · rcases hrest with ⟨e, _, htr⟩ | ⟨c, hrace, hrest⟩
    · rw [htr] at hmem
      simp at hmem
      rw [hmem, classifyError_success_false e] at hs
      exact Bool.noConfusion hs
    · rcases hrest with ⟨e, _, htr⟩ | ⟨_, htr⟩ | ⟨hver, hrest⟩
      · rw [htr] at hmem
        simp at hmem
        rw [hmem, classifyError_success_false e] at hs
        exact Bool.noConfusion hs
      · rw [htr] at hmem
        simp at hmem
        rw [hmem] at hs
        exact absurd hs (by decide)
      · rcases hrest with ⟨e, _, htr⟩ | ⟨h, hld, hrest⟩
        · rw [htr] at hmem
          simp at hmem
          rw [hmem, classifyError_success_false e] at hs
          exact Bool.noConfusion hs
        · rcases hrest with ⟨e, _, htr⟩ | ⟨hw, htr⟩
          · rw [htr] at hmem
            simp at hmem
            rw [hmem, classifyError_success_false e] at hs
            exact Bool.noConfusion hs
          · rw [htr] at hmem
            simp at hmem
            exact ⟨h, hld, hw, hmem, t, u, htr⟩
/-! ## Claims -/

/-- C1: the ledger commit is invoked only when the interpreted verdict
is `approved = true`; whenever the interpreted verdict is
`approved = false` the handler answers the fixed `EvidenceRejected`
response and the ledger is never invoked. -/
theorem c1_commit_gate (b : RequestBody) (env : Env) (t u : String)
    (c : Option String)
    (hv : validate b = .ok (t, u)) (hr : raceEval env.eval = .ok c)
    (hi : isVerifiedOf c = .ok false) :
    verifyHandler b env =
      [.evalCall (mkEvalRequest t u), .respond evidenceRejectedResp] ∧
    ledgerCallCount (verifyHandler b env) = 0 ∧
    ∀ b2 env2, Event.ledgerCall ∈ verifyHandler b2 env2 →
      ∃ c2, raceEval env2.eval = .ok c2 ∧ isVerifiedOf c2 = .ok true := by
  have htrace : verifyHandler b env =
      [.evalCall (mkEvalRequest t u), .respond evidenceRejectedResp] := by
    simp [verifyHandler, hv, hr, hi]
  exact ⟨htrace, by rw [htrace]; rfl,
    fun b2 env2 hmem => ledgerCall_mem_inv b2 env2 hmem⟩

/-- C1 witness: a `NO` verdict on a well-formed request yields the
evidence rejection and zero ledger invocations. -/
theorem c1_commit_gate_witness :
    verifyHandler reqOK envRejectNO =
      [.evalCall (mkEvalRequest "Run 5km" "img"), .respond evidenceRejectedResp] ∧
    ledgerCallCount (verifyHandler reqOK envRejectNO) = 0 := by
  have h := c1_commit_gate reqOK envRejectNO "Run 5km" "img" (some "NO")
    (by decide) (by decide) (by decide)
  exact ⟨h.1, h.2.1⟩

/-- C2 (amended): for a present content string the verdict is
`approved = true` iff the trimmed, upper-cased text contains the
substring `YES`, and a non-`YES` string ends the attempt as
`EvidenceRejected`; but an absent (`null`) content does not interpret
to `approved = false` — the interpreter throws and the attempt ends as
`InternalFailure`. -/
theorem c2_verdict_rule (b : RequestBody) (env : Env) (t u : String)
    (content : Option String)
    (hv : validate b = .ok (t, u)) (he : env.eval = .resolves 0 content) :
    (∀ s, content = some s → jsIncludes (jsToUpper (jsTrim s)) "YES" = false →
      verifyHandler b env =
        [.evalCall (mkEvalRequest t u), .respond evidenceRejectedResp]) ∧
    (∀ s, content = some s → jsIncludes (jsToUpper (jsTrim s)) "YES" = true →
      evidenceRejectedResp ∉ responsesOf (verifyHandler b env)) ∧
    (content = none →
      verifyHandler b env =
        [.evalCall (mkEvalRequest t u), .respond internalFailureResp]) := by
  have hr : raceEval env.eval = .ok content := by
    rw [he]
    simp [raceEval, AI_TIMEOUT_MS]
  refine ⟨?_, ?_, ?_⟩
  · intro s hcs hno
    subst hcs
    have hi : isVerifiedOf (some s) = .ok false := by simp [isVerifiedOf, hno]
    simp [verifyHandler, hv, hr, hi]
  · intro s hcs hyes
    subst hcs
    have hi : isVerifiedOf (some s) = .ok true := by simp [isVerifiedOf, hyes]
    rcases hld : env.ledger with h | e
    · rcases hw : env.txwait with _ | e2
      · simp [verifyHandler, hv, hr, hi, hld, hw, responsesOf, successResp,
          evidenceRejectedResp, errResp]
      · have hne := classifyError_ne_evidenceRejected e2
        simp [verifyHandler, hv, hr, hi, hld, hw, responsesOf]
        exact fun hh => hne hh.symm
    · have hne := classifyError_ne_evidenceRejected e
      simp [verifyHandler, hv, hr, hi, hld, responsesOf]
      exact fun hh => hne hh.symm
  · intro hnone
    subst hnone
    have hc : classifyError nullContentError = internalFailureResp := by decide
    simp [verifyHandler, hv, hr, isVerifiedOf, hc]

/-- C2 witness: a `MAYBE` verdict is rejected as evidence. -/
theorem c2_verdict_rule_witness :
    verifyHandler reqOK envMaybe =
      [.evalCall (mkEvalRequest "Run 5km" "img"), .respond evidenceRejectedResp] :=
  (c2_verdict_rule reqOK envMaybe "Run 5km" "img" (some "MAYBE")
    (by decide) rfl).1 "MAYBE" rfl (by decide)
/-- C2 counterexample: an evaluator response with an absent (`null`)
content field does not interpret to `approved = false`; instead the
interpreter throws, and the attempt ends as `InternalFailure` (HTTP
500), not `EvidenceRejected`. -/
theorem c2_absent_content_counterexample :
    isVerifiedOf none ≠ .ok false ∧
    verifyHandler reqOK envNullContent =
      [.evalCall (mkEvalRequest "Run 5km" "img"), .respond internalFailureResp] ∧
    internalFailureResp ≠ evidenceRejectedResp := by
  refine ⟨by decide, by decide, by decide⟩

/-- C3: for every attempt whose evaluator call does not settle before
the fixed 60000 ms deadline, the timer wins the race and the handler
answers exactly the `EvaluatorTimeout` category — HTTP 504 with the
fixed timeout message — never `InternalFailure` or any other
category. -/
theorem c3_timeout_category (b : RequestBody) (env : Env) (t u : String)
    (hv : validate b = .ok (t, u))
    (hns : ¬ settlesBefore env.eval AI_TIMEOUT_MS) :
    verifyHandler b env =
      [.evalCall (mkEvalRequest t u), .respond evaluatorTimeoutResp] ∧
    evaluatorTimeoutResp.status = 504 ∧
    evaluatorTimeoutResp = categoryResp ErrCategory.evaluatorTimeout ∧
    internalFailureResp ∉ responsesOf (verifyHandler b env) := by
  have hr := raceEval_of_no_settle env.eval hns
  have hc : classifyError timeoutError = evaluatorTimeoutResp := by decide
  have htrace : verifyHandler b env =
      [.evalCall (mkEvalRequest t u), .respond evaluatorTimeoutResp] := by
    simp [verifyHandler, hv, hr, hc]
  refine ⟨htrace, rfl, rfl, ?_⟩
  rw [htrace]
  simp [responsesOf, internalFailureResp, evaluatorTimeoutResp, errResp]

/-- C3 witness: a never-resolving evaluator call on a well-formed
request yields the 504 timeout response. -/
theorem c3_timeout_category_witness :
    verifyHandler reqOK envNeverEval =
      [.evalCall (mkEvalRequest "Run 5km" "img"), .respond evaluatorTimeoutResp] :=
  (c3_timeout_category reqOK envNeverEval "Run 5km" "img" (by decide) (by decide)).1

/-- C4: classification is total — every execution of the handler, for
every request body and every behaviour of the evaluator, ledger and
inclusion wait, sends exactly one response, and that response is
either the success result or one of the nine fixed taxonomy
responses. -/
theorem c4_total_classification (b : RequestBody) (env : Env) :
    ∃ r, responsesOf (verifyHandler b env) = [r] ∧
      (r ∈ errorTaxonomyResps ∨ ∃ h, r = successResp h) := by
  rcases verifyHandler_cases b env with ⟨r0, hval, htr⟩ | ⟨t, u, hval, hrest⟩
  · exact ⟨r0, by rw [htr]; simp [responsesOf],
      Or.inl (validationResps_sub_taxonomy r0 (validate_error_mem b r0 hval))⟩
  · rcases hrest with ⟨e, _, htr⟩ | ⟨c, hrace, hrest⟩
    · exact ⟨classifyError e, by rw [htr]; simp [responsesOf],
        Or.inl (classifyError_mem_taxonomy e)⟩
    · rcases hrest with ⟨e, _, htr⟩ | ⟨_, htr⟩ | ⟨hver, hrest⟩
      · exact ⟨classifyError e, by rw [htr]; simp [responsesOf],
          Or.inl (classifyError_mem_taxonomy e)⟩
      · exact ⟨evidenceRejectedResp, by rw [htr]; simp [responsesOf],
          Or.inl (by decide)⟩
      · rcases hrest with ⟨e, _, htr⟩ | ⟨h, hld, hrest⟩
        · exact ⟨classifyError e, by rw [htr]; simp [responsesOf],
            Or.inl (classifyError_mem_taxonomy e)⟩
        · rcases hrest with ⟨e, _, htr⟩ | ⟨hw, htr⟩
          · exact ⟨classifyError e, by rw [htr]; simp [responsesOf],
              Or.inl (classifyError_mem_taxonomy e)⟩
          · exact ⟨successResp h, by rw [htr]; simp [responsesOf],
              Or.inr ⟨h, rfl⟩⟩

/-- C5: the catch block factors through the error category — the
classified response is determined by the category alone, two errors of
the same category get identical caller-visible responses, and every
classified message is one of the four fixed caller-safe strings. -/
theorem c5_fixed_category_messages (e : JsError) :
    classifyError e = categoryResp (categoryOf e) ∧
    (∀ e2 : JsError, categoryOf e2 = categoryOf e →
      classifyError e2 = classifyError e) ∧
    (classifyError e).body.message ∈
      [some "AI verification timed out. Please try again.",
       some "Challenge may already be verified or does not exist.",
       some "AI service rate limited. Please try again in a few seconds.",
       some "Verification process failed. Please try again."] := by
  have factor : ∀ e3 : JsError, classifyError e3 = categoryResp (categoryOf e3) := by
    intro e3
    by_cases h1 : e3.message = some "AI verification timeout"
    · simp [classifyError, categoryOf, categoryResp, h1]
    · by_cases h2 : e3.code = some "CALL_EXCEPTION"
      · simp [classifyError, categoryOf, categoryResp, h1, h2]
      · by_cases h3 : errorRateLimited e3 = true
        · simp [classifyError, categoryOf, categoryResp, h1, h2, h3]
        · simp [classifyError, categoryOf, categoryResp, h1, h2, h3]
  refine ⟨factor e, fun e2 h => by rw [factor e, factor e2, h], ?_⟩
  have h := classifyError_mem e
  simp only [List.mem_cons, List.not_mem_nil, or_false] at h ⊢
  rcases h with h | h | h | h <;> rw [h] <;> simp [evaluatorTimeoutResp,
    alreadyFinalizedResp, rateLimitedResp, internalFailureResp, errResp]

/-- C5 witness: the timer error classifies through its category. -/
theorem c5_fixed_category_messages_witness :
    classifyError timeoutError = categoryResp (categoryOf timeoutError) :=
  (c5_fixed_category_messages timeoutError).1
/-- C6: when the evaluator approves but the ledger rejects the commit
with its revert signal (`code = CALL_EXCEPTION`), the handler answers
the fixed `AlreadyFinalized` response — HTTP 400 with the
already-verified-or-does-not-exist message — after exactly one ledger
invocation, with no retry. -/
theorem c6_already_finalized (b : RequestBody) (env : Env) (t u : String)
    (c : Option String) (e : JsError)
    (hv : validate b = .ok (t, u)) (hr : raceEval env.eval = .ok c)
    (hi : isVerifiedOf c = .ok true) (hl : env.ledger = .rejects e)
    (hcode : e.code = some "CALL_EXCEPTION")
    (hmsg : e.message ≠ some "AI verification timeout") :
    verifyHandler b env =
      [.evalCall (mkEvalRequest t u), .ledgerCall, .respond alreadyFinalizedResp] ∧
    ledgerCallCount (verifyHandler b env) = 1 ∧
    alreadyFinalizedResp =
      errResp 400 "Challenge may already be verified or does not exist." := by
  have hc : classifyError e = alreadyFinalizedResp := by
    unfold classifyError
    rw [if_neg hmsg, if_pos hcode]
  have htrace : verifyHandler b env =
      [.evalCall (mkEvalRequest t u), .ledgerCall, .respond alreadyFinalizedResp] := by
    simp [verifyHandler, hv, hr, hi, hl, hc]
  exact ⟨htrace, by rw [htrace]; rfl, rfl⟩

/-- C6 witness: a contract revert after a `YES` verdict yields the
already-finalized response with one ledger invocation. -/
theorem c6_already_finalized_witness :
    verifyHandler reqOK envLedgerRevert =
      [.evalCall (mkEvalRequest "Run 5km" "img"), .ledgerCall,
       .respond alreadyFinalizedResp] ∧
    ledgerCallCount (verifyHandler reqOK envLedgerRevert) = 1 := by
  have h := c6_already_finalized reqOK envLedgerRevert "Run 5km" "img"
    (some "YES") revertError (by decide) (by decide) (by decide) rfl rfl (by decide)
  exact ⟨h.1, h.2.1⟩

/-- C7: a request whose title is not a string, or is a string longer
than 500 characters, is answered with a validation failure before the
pipeline starts and the evaluator is never called; a string title of
length exactly 500 passes validation. -/
theorem c7_title_validation (b : RequestBody) (env : Env)
    (hbad : (∀ s, b.title ≠ .str s) ∨ ∃ s, b.title = .str s ∧ 500 < s.length) :
    (∃ r ∈ validationResps, verifyHandler b env = [.respond r]) ∧
    callsEvaluator (verifyHandler b env) = false ∧
    ∀ t : String, t.length = 500 →
      validate ⟨.str "42", .str t, .str "img"⟩ = .ok (t, "img") := by
  obtain ⟨r, hrmem, hval⟩ := validate_title_bad b hbad
  have htrace : verifyHandler b env = [.respond r] := by
    simp [verifyHandler, hval]
  refine ⟨⟨r, hrmem, htrace⟩, by rw [htrace]; rfl, ?_⟩
  intro t hlen
  have ht : t ≠ "" := by
    intro hemp
    rw [hemp] at hlen
    exact absurd hlen (by decide)
  exact validate_ok_of (.str "42") t "img" (by decide) (by decide) ht
    (by omega) (by decide)

/-- C7 witness: a 501-character title is rejected without calling the
evaluator, and a 500-character title passes validation. -/
theorem c7_title_validation_witness :
    callsEvaluator (verifyHandler reqLongTitle envApprove) = false ∧
    validate ⟨.str "42", .str title500, .str "img"⟩ = .ok (title500, "img") := by
  have h := c7_title_validation reqLongTitle envApprove
    (Or.inr ⟨longTitle, rfl, by decide⟩)
  exact ⟨h.2.1, h.2.2 title500 (by decide)⟩

/-- C8 counterexample: the number `0` is an integer-valued
`challengeId` which is numeric (`isNaN(Number(0))` is false), yet the
handler rejects it at the missing-fields truthiness check rather than
accepting it. -/
theorem c8_zero_id_counterexample :
    (JSValue.num (JSNum.int 0)).toNumber.isNaN = false ∧
    validate ⟨.num (.int 0), .str "Run 5km", .str "img"⟩ =
      .error missingFieldsResp ∧
    verifyHandler ⟨.num (.int 0), .str "Run 5km", .str "img"⟩ envApprove =
      [.respond missingFieldsResp] := by
  exact ⟨rfl, by decide, by decide⟩

/-- C8 (amended): a `challengeId` given as a number or numeric-looking
text is accepted by the pre-pipeline validation provided it is also
truthy; the falsy number `0` is instead rejected by the missing-fields
check. -/
theorem c8_challenge_id_validation (cid : JSValue) (t u : String)
    (hc : cid.truthy = true) (hn : cid.toNumber.isNaN = false)
    (ht : t ≠ "") (hlen : t.length ≤ 500) (hu : u ≠ "") :
    validate ⟨cid, .str t, .str u⟩ = .ok (t, u) ∧
    validate ⟨.num (.int 0), .str t, .str u⟩ = .error missingFieldsResp := by
  refine ⟨validate_ok_of cid t u hc hn ht hlen hu, ?_⟩
  simp [validate, JSValue.truthy]

/-- C8 witness: the numeric string `"42"` is accepted; the number `0`
is rejected as missing. -/
theorem c8_challenge_id_validation_witness :
    validate ⟨.str "42", .str "Run 5km", .str "img"⟩ = .ok ("Run 5km", "img") ∧
    validate ⟨.num (.int 0), .str "Run 5km", .str "img"⟩ =
      .error missingFieldsResp :=
  c8_challenge_id_validation (.str "42") "Run 5km" "img" (by decide) (by decide)
    (by decide) (by decide) (by decide)

/-- C9: on the success path the handler confirms inclusion (`tx.wait`
resolves) before sending `{ success: true }` with the hash of the
single submitted transaction; conversely every success response in any
execution occurs only after the inclusion confirmation and carries
that transaction hash. -/
theorem c9_success_after_inclusion (b : RequestBody) (env : Env)
    (t u : String) (c : Option String) (h : String)
    (hv : validate b = .ok (t, u)) (hr : raceEval env.eval = .ok c)
    (hi : isVerifiedOf c = .ok true) (hl : env.ledger = .resolves h)
    (hw : env.txwait = .resolves) :
    verifyHandler b env =
      [.evalCall (mkEvalRequest t u), .ledgerCall, .txWaitDone h,
       .respond (successResp h)] ∧
    (successResp h).body.txHash = some h ∧
    ∀ b2 env2 r, Event.respond r ∈ verifyHandler b2 env2 →
      r.body.success = true →
      ∃ h2, env2.ledger = .resolves h2 ∧ env2.txwait = .resolves ∧
        r = successResp h2 ∧
        ∃ t2 u2, verifyHandler b2 env2 =
          [.evalCall (mkEvalRequest t2 u2), .ledgerCall, .txWaitDone h2,
           .respond (successResp h2)] := by
  have htrace : verifyHandler b env =
      [.evalCall (mkEvalRequest t u), .ledgerCall, .txWaitDone h,
       .respond (successResp h)] := by
    simp [verifyHandler, hv, hr, hi, hl, hw]
  exact ⟨htrace, rfl,
    fun b2 env2 r hmem hs => success_respond_inv b2 env2 r hmem hs⟩

/-- C9 witness: the full success run confirms inclusion before the
success response and reports the submitted transaction hash. -/
theorem c9_success_after_inclusion_witness :
    verifyHandler reqOK envApprove =
      [.evalCall (mkEvalRequest "Run 5km" "img"), .ledgerCall,
       .txWaitDone "0xabc123", .respond (successResp "0xabc123")] :=
  (c9_success_after_inclusion reqOK envApprove "Run 5km" "img" (some "YES")
    "0xabc123" (by decide) (by decide) (by decide) rfl rfl).1

/-- C10: any non-empty string passes the `imageUrl` validation — no
URL-shape or image-format check — and is forwarded verbatim to the
evaluator as the image reference, which is the first observable action
of the pipeline. -/
theorem c10_image_url_passthrough (u : String) (env : Env) (hu : u ≠ "") :
    validate ⟨.str "42", .str "Run 5km", .str u⟩ = .ok ("Run 5km", u) ∧
    (mkEvalRequest "Run 5km" u).imageUrlRef = u ∧
    (verifyHandler ⟨.str "42", .str "Run 5km", .str u⟩ env).head? =
      some (.evalCall (mkEvalRequest "Run 5km" u)) := by
  have hval := validate_ok_of (.str "42") "Run 5km" u (by decide) (by decide)
    (by decide) (by decide) hu
  refine ⟨hval, rfl, ?_⟩
  simp [verifyHandler, hval]

/-- C10 witness: a string that is in no way URL-shaped passes
validation and reaches the evaluator verbatim. -/
theorem c10_image_url_passthrough_witness :
    validate ⟨.str "42", .str "Run 5km", .str "definitely not a url"⟩ =
      .ok ("Run 5km", "definitely not a url") ∧
    (mkEvalRequest "Run 5km" "definitely not a url").imageUrlRef =
      "definitely not a url" := by
  have h := c10_image_url_passthrough "definitely not a url" envApprove (by decide)
  exact ⟨h.1, h.2.1⟩
end TouchGrass
